import Mathlib

/-!
Verification development for the k3d cluster orchestration engine
(Go sources: cli/commands.go, cli/cluster.go, cli/container.go, cli/network.go,
cli/util.go and the accompanying package files).

The Go code is shallowly embedded: pure functions become Lean functions,
container-engine effects become explicit transitions on an `EngineState`
record, engine failures become boolean failure oracles, and Go runtime
panics (out-of-bounds indexing, slicing) become `Option.none`.

Go strings are embedded as `String` where only whole-string equality
matters, and as `List Char` (one entry per rune, mirroring a Go `range`
loop) where byte-level behaviour of the source is relevant.
-/

set_option autoImplicit false

namespace K3d

/-- Rune-level model of a Go string: one `Char` per Unicode code point. -/
abbrev Str := List Char

/-! ## Port publishing resolver (run/port.go, both revisions) -/

/-- Core of Go `strings.Split(s, "@")`: returns the chunk before the first
`@` together with the list of the remaining chunks. -/
def splitOnAtCore : Str → Str × List Str
  | [] => ([], [])
  | c :: rest =>
    let r := splitOnAtCore rest
    if c = '@' then ([], r.1 :: r.2) else (c :: r.1, r.2)

/-- Go `strings.Split(s, "@")` (the separator is a single character, so the
split never merges separators and always returns at least one chunk). -/
def splitOnAt (s : Str) : List Str :=
  (splitOnAtCore s).1 :: (splitOnAtCore s).2

/-- `defaultNodes` constant of the revision wired into the current
`CreateCluster` (`const defaultNodes = "server"`); an earlier revision of the
same file used `"all"`. -/
def defaultNodes : Str := ['s', 'e', 'r', 'v', 'e', 'r']

/-- `extractNodes` separates the node-specifier list from the port spec:
split on `@`, the first chunk is the port portion, the remaining chunks are
the node specifiers, and an empty specifier list is replaced by
`[defaultNodes]`. -/
def extractNodes (spec : Str) : List Str × Str :=
  let atSplit := splitOnAt spec
  let portSpec := atSplit.headD []
  let nodes := if atSplit.length > 1 then atSplit.tail else []
  let nodes := if nodes.length = 0 then nodes ++ [defaultNodes] else nodes
  (nodes, portSpec)

/-- `@`-joined selector suffix `sel1@sel2@...@selK` of a port-spec string
of the shape the claim describes. -/
def joinSelectors : List Str → Str
  | [] => []
  | [s] => s
  | s :: rest => s ++ '@' :: joinSelectors rest

/-- One `nat.PortBinding`: host IP and host port, both kept as the strings
the Go struct stores. -/
structure PortBinding where
  hostIP : String
  hostPort : String
  deriving Repr, DecidableEq

/-- `PublishedPorts`: the exposed-port set and the binding map. The two Go
maps keyed by `nat.Port` are embedded as lists in insertion order. -/
structure PublishedPorts where
  exposedPorts : List String
  portBindings : List (String × List PortBinding)
  deriving Repr, DecidableEq

/-- Base-10 parse of a rune list the way `strconv.ParseUint(s, 10, 16)`
reads digits: `none` at the first non-digit character. -/
def parseDecimalAux : List Char → Nat → Option Nat
  | [], acc => some acc
  | c :: cs, acc =>
    if 48 ≤ c.toNat ∧ c.toNat ≤ 57 then parseDecimalAux cs (acc * 10 + (c.toNat - 48))
    else none

/-- `nat.ParsePort`: empty string parses to 0; otherwise the decimal value
if it fits in 16 bits; any parse failure (non-digit, out of range) is an
error, which the caller ignores (`port, _ := nat.ParsePort(...)`) leaving
the zero value. -/
def natParsePort (s : String) : Nat :=
  if s = "" then 0
  else
    match parseDecimalAux s.data 0 with
    | some n => if n > 65535 then 0 else n
    | none => 0

/-- `Offset` of the first revision of the port file (lines 110..129):
every host port becomes `port + offset`; exposed ports are copied. -/
def OffsetAdditive (p : PublishedPorts) (offset : Int) : PublishedPorts :=
  { exposedPorts := p.exposedPorts,
    portBindings := p.portBindings.map fun kv =>
      (kv.1, kv.2.map fun b =>
        { hostIP := b.hostIP,
          hostPort := toString ((natParsePort b.hostPort : Int) + offset) }) }

/-- `Offset` of the second revision of the port file (lines 340..360), the
revision whose `mapNodesToPortSpecs` signature matches the current
`CreateCluster`: every host port becomes `port * offset`; exposed ports are
copied. -/
def OffsetMultiplicative (p : PublishedPorts) (offset : Int) : PublishedPorts :=
  { exposedPorts := p.exposedPorts,
    portBindings := p.portBindings.map fun kv =>
      (kv.1, kv.2.map fun b =>
        { hostIP := b.hostIP,
          hostPort := toString ((natParsePort b.hostPort : Int) * offset) }) }

/-- A concrete `PublishedPorts`: container port 80/tcp published on host
port 8080. -/
def samplePorts : PublishedPorts :=
  { exposedPorts := ["80/tcp"],
    portBindings := [("80/tcp", [{ hostIP := "0.0.0.0", hostPort := "8080" }])] }

/-- `nodeRuleGroupsMap`: role-group membership used by `MergePortSpecs`
(worker nodes belong to all/workers, server nodes to all/server/master). -/
def nodeRuleGroupsMap (role : String) : List String :=
  if role = "worker" then ["all", "workers"]
  else if role = "server" then ["all", "server", "master"]
  else []

/-- Inner step of the `MergePortSpecs` accumulation loops: append `v` unless
an equal string is already present (the Go loop scans `portSpecs` for an
exact match before appending). -/
def addPortSpec (portSpecs : List String) (v : String) : List String :=
  if portSpecs.contains v then portSpecs else portSpecs ++ [v]

/-- `MergePortSpecs` over a node-to-portSpec map `m` (a missing key of the
Go map reads as `[]`, so `m` is total): fold the specs of every role group
of `role`, then the specs of the literal `name`, de-duplicating as it goes.
The Go function also returns an error value that is always nil. -/
def MergePortSpecs (m : String → List String) (role name : String) : List String :=
  let fromGroups := (nodeRuleGroupsMap role).foldl (fun acc group => (m group).foldl addPortSpec acc) []
  (m name).foldl addPortSpec fromGroups

/-- Modelled from the spec wording for comparison with `MergePortSpecs`:
de-duplicate exact string matches while preserving first-seen order. -/
def dedupFirstSeen (l : List String) : List String :=
  l.foldl addPortSpec []

/-! ## Cluster name validation (cli/util.go) -/

/-- `clusterNameMaxSize` from cli/util.go. -/
def clusterNameMaxSize : Nat := 35

/-- UTF-8 encoded size in bytes of one code point; `len(name)` in Go counts
these bytes. -/
def utf8Size (c : Char) : Nat :=
  if c.toNat < 0x80 then 1
  else if c.toNat < 0x800 then 2
  else if c.toNat < 0x10000 then 3
  else 4

/-- Byte length of a Go string (`len(name)`). -/
def byteLen (s : Str) : Nat :=
  (s.map utf8Size).sum

/-- First byte of the UTF-8 encoding of a character; `name[0]` in Go reads
this byte of the first rune. -/
def utf8FirstByte (c : Char) : Nat :=
  if c.toNat < 0x80 then c.toNat
  else if c.toNat < 0x800 then 0xC0 + c.toNat / 0x40
  else if c.toNat < 0x10000 then 0xE0 + c.toNat / 0x1000
  else 0xF0 + c.toNat / 0x40000

/-- Last byte of the UTF-8 encoding of a character; `name[len(name)-1]` in
Go reads this byte of the last rune. -/
def utf8LastByte (c : Char) : Nat :=
  if c.toNat < 0x80 then c.toNat else 0x80 + c.toNat % 0x40

/-- The switch of the rune loop of `checkClusterName`: digits, lowercase,
uppercase or dash (Go rune comparisons are code-point comparisons; 48..57
are the digits, 97..122 lowercase, 65..90 uppercase, 45 the dash). -/
def validNameChar (c : Char) : Bool :=
  (48 ≤ c.toNat && c.toNat ≤ 57) || (97 ≤ c.toNat && c.toNat ≤ 122) ||
    (65 ≤ c.toNat && c.toNat ≤ 90) || c.toNat == 45

/-- `checkClusterName`. Result `some (some msg)` is a returned error,
`some none` a nil return, and `none` the runtime panic raised by `name[0]`
(and `name[len(name)-1]`) when `name` is empty: the function indexes before
any emptiness check. The byte-level checks of the source are kept: the
length check counts bytes and the dash checks read the first and last byte. -/
def checkClusterName (name : Str) : Option (Option String) :=
  if byteLen name > clusterNameMaxSize then
    some (some "cluster name is too long")
  else
    match name with
    | [] => none
    | c0 :: rest =>
      if utf8FirstByte c0 = 0x2D ∨ utf8LastByte ((c0 :: rest).getLast (List.cons_ne_nil c0 rest)) = 0x2D then
        some (some "cluster name can not start or end with - (dash)")
      else if name.all validNameChar then
        some none
      else
        some (some "cluster name contains charaters other than Aa-Zz, 0-9 or -")

/-- The character class of the claim wording: ASCII letters, digits and the
dash. -/
def claimNameChar (c : Char) : Prop :=
  ('A' ≤ c ∧ c ≤ 'Z') ∨ ('a' ≤ c ∧ c ≤ 'z') ∨ ('0' ≤ c ∧ c ≤ '9') ∨ c = '-'

instance (c : Char) : Decidable (claimNameChar c) := by
  unfold claimNameChar; infer_instance

/-! ## Cluster status classification (cli/cluster.go) -/

/-- `component` label of a container: this system only ever creates server
and worker containers. -/
inductive Role where
  | server
  | worker
  deriving Repr, DecidableEq

/-- One container as the state reader sees it: engine id, `cluster` label,
`component` label and raw engine state string. -/
structure DockerContainer where
  id : String
  cluster : String
  component : Role
  state : String
  deriving Repr, DecidableEq

/-- `getClusterStatus`: the Go loop returns `"unhealthy"` at the first
worker whose state differs from the server state, which is the same result
as testing whether any worker disagrees. -/
def getClusterStatus (server : DockerContainer) (workers : List DockerContainer) : String :=
  if workers.any (fun w => w.state != server.state) then "unhealthy"
  else if server.state = "exited" then "stopped"
  else server.state

/-! ## Readiness wait loop (CreateCluster, cli/commands.go and the current
revision) -/

/-- Outcome of one iteration of the wait loop. -/
inductive WaitStep where
  | abortTimeout
  | logsError
  | ready
  | sleepPoll
  deriving Repr, DecidableEq

/-- One iteration of the readiness-poll loop of `CreateCluster`, with
`elapsed = now - start` in the same unit as `timeout`. The source condition
is `timeout != 0 && !time.Now().After(start.Add(timeout))`, and
`time.After` is a strict comparison, so the abort branch fires exactly when
`timeout` is non-zero and `elapsed` is NOT greater than `timeout`. On abort
the code deletes the whole cluster and returns the timeout error; otherwise
it fetches the log stream (`logsErr`, `nRead`, `hasMarker` stand for the
outcome of that external call), breaks when `nRead > 0` and the logs
contain the readiness marker, and sleeps one second before re-polling
otherwise. -/
def waitIteration (timeout elapsed : Int) (logsErr : Bool) (nRead : Int) (hasMarker : Bool) : WaitStep :=
  if timeout ≠ 0 ∧ ¬ elapsed > timeout then WaitStep.abortTimeout
  else if logsErr then WaitStep.logsError
  else if nRead > 0 ∧ hasMarker then WaitStep.ready
  else WaitStep.sleepPoll

/-! ## Engine state and the lifecycle controller (current revision:
CreateCluster worker loop, DeleteCluster, cli/network.go, the container
file). Engine failures are boolean oracles: `rf id` means removing
container `id` fails, `nf id` means removing network `id` fails. -/

/-- A docker network created by this system, with its `cluster` label. -/
structure Network where
  id : String
  cluster : String
  deriving Repr, DecidableEq

/-- The authoritative engine-side state: containers and networks carrying
the k3d labels, plus the local bookkeeping directories (one per cluster). -/
structure EngineState where
  containers : List DockerContainer
  networks : List Network
  dirs : List String
  deriving Repr, DecidableEq

/-- One entry of the cluster map built by `getClusters`. -/
structure KCluster where
  name : String
  server : DockerContainer
  workers : List DockerContainer
  deriving Repr, DecidableEq

/-- `getClusters(all, name)`: list the server containers, and per server
whose cluster label passes the filter (`all` or an exact name match) collect
the worker containers with the same cluster label. The Go function stores
the entries in a map keyed by cluster name and later code ranges over that
map; the map is embedded as the list of entries in server-list order, which
carries the same entries whenever server cluster labels are distinct. -/
def getClusters (all : Bool) (name : String) (st : EngineState) : List KCluster :=
  (st.containers.filter (fun c => c.component == Role.server)).foldl
    (fun acc server =>
      if all || name == server.cluster then
        acc ++ [{ name := server.cluster, server := server,
                  workers := st.containers.filter
                    (fun c => c.component == Role.worker && c.cluster == server.cluster) }]
      else acc) []

/-- Effect of a successful `docker.ContainerRemove` on the engine state. -/
def removeContainerFromState (id : String) (st : EngineState) : EngineState :=
  { st with containers := st.containers.filter (fun c => !(c.id == id)) }

/-- `removeContainer(ID)` (force remove): either the engine refuses
(`rf id`) and an error is returned with the state unchanged, or the
container is gone. -/
def tryRemoveContainer (rf : String → Bool) (id : String) (st : EngineState) : EngineState × Option String :=
  if rf id then (st, some ("FAILURE: could not delete container [" ++ id ++ "]"))
  else (removeContainerFromState id st, none)

/-- The worker-removal loop of `DeleteCluster`: per worker call
`removeContainer`, log a failure and continue with the next worker. -/
def removeWorkers (rf : String → Bool) : List DockerContainer → EngineState → EngineState
  | [], st => st
  | w :: ws, st => removeWorkers rf ws (tryRemoveContainer rf w.id st).1

/-- `deleteClusterDir`: removes the bookkeeping directory (a failure is only
a warning; `os.RemoveAll` reports none for a missing path). -/
def deleteClusterDir (name : String) (st : EngineState) : EngineState :=
  { st with dirs := st.dirs.filter (fun d => !(d == name)) }

/-- `deleteClusterNetwork`: removes every network labelled with the cluster
name, warning and continuing when the engine refuses one (`nf`). -/
def deleteClusterNetwork (nf : String → Bool) (name : String) (st : EngineState) : EngineState :=
  { st with networks := st.networks.filter (fun nw => !(nw.cluster == name && !nf nw.id)) }

/-- The error `DeleteCluster` returns when the server container of a
cluster cannot be removed. -/
def serverRemoveError (name : String) : String :=
  "ERROR: Could not remove server for cluster " ++ name

/-- The per-cluster loop of `DeleteCluster` (current revision): remove the
workers (best effort), delete the bookkeeping directory, then remove the
server container; if the server removal fails the loop RETURNS that error at
once, otherwise it deletes the cluster network (warning only) and moves to
the next cluster. -/
def deleteClustersLoop (rf nf : String → Bool) : List KCluster → EngineState → EngineState × Option String
  | [], st => (st, none)
  | c :: rest, st =>
    let st1 := removeWorkers rf c.workers st
    let st2 := deleteClusterDir c.name st1
    if rf c.server.id then (st2, some (serverRemoveError c.name))
    else
      let st3 := removeContainerFromState c.server.id st2
      let st4 := deleteClusterNetwork nf c.name st3
      deleteClustersLoop rf nf rest st4

/-- `DeleteCluster`: resolve the target set with `getClusters`, then run the
per-cluster removal loop. -/
def DeleteCluster (rf nf : String → Bool) (all : Bool) (name : String) (st : EngineState) : EngineState × Option String :=
  deleteClustersLoop rf nf (getClusters all name st) st

/-- Generated name of worker `i` of a cluster (`k3d-<name>-worker-<i>`),
used as container name and id in this model. -/
def workerName (name : String) (i : Nat) : String :=
  "k3d-" ++ name ++ "-worker-" ++ toString i

/-- Effect of a successful `createWorker` on the engine state: one more
container labelled `component=worker`, `cluster=name`. -/
def createWorkerInState (name : String) (i : Nat) (st : EngineState) : EngineState :=
  { st with containers := st.containers ++ [{ id := workerName name i, cluster := name,
                                              component := Role.worker, state := "running" }] }

/-- The worker-creation loop of the current `CreateCluster` (ordinals
`i, i+1, ...` with `n` workers still to create; `wf i` means creating the
worker with ordinal `i` fails): on the first failure the code calls its
`deleteCluster` helper, which runs `DeleteCluster` for this cluster name
ignoring the result, and returns the creation error. -/
def createWorkersLoop (wf : Nat → Bool) (rf nf : String → Bool) (name : String) : Nat → Nat → EngineState → EngineState × Option String
  | _, 0, st => (st, none)
  | i, n + 1, st =>
    if wf i then
      ((DeleteCluster rf nf false name st).1, some "ERROR: failed to create worker node")
    else
      createWorkersLoop wf rf nf name (i + 1) n (createWorkerInState name i st)

/-! ## Credentials extraction (cli/cluster.go: createKubeConfigFile and
getKubeConfig). The docker interactions are inputs: `serverCount` is the
number of containers the server-label query returns inside
`createKubeConfigFile`, `copy` the outcome of `CopyFromContainer` plus
reading the stream, `createFileOk` whether `os.Create` succeeds,
`clustersFound`/`clustersErr` the outcome of the `getClusters` pre-check in
`getKubeConfig`, and `stat` the outcome of `os.Stat` on the local file. -/

/-- Outcome of `os.Stat` on the local kubeconfig path. -/
inductive StatResult where
  | statExists
  | statNotExists
  | statFailed (msg : String)
  deriving Repr, DecidableEq

/-- Go `bytes.Trim(bs, "\x00")`: strips leading and trailing NUL bytes. -/
def trimNul (bs : List Nat) : List Nat :=
  ((bs.dropWhile (fun b => b == 0)).reverse.dropWhile (fun b => b == 0)).reverse

/-- `createKubeConfigFile`: a not-found error when the server-label query
matches no container, the copy error when the copy fails, a panic (`none`,
from slicing `readBytes[512:]`) when fewer than 512 bytes were read, a file
creation error when `os.Create` fails, and otherwise the bytes written:
the read bytes with the 512-byte archive header dropped and NUL padding
trimmed. -/
def createKubeConfigFile (serverCount : Nat) (copy : Except String (List Nat)) (createFileOk : Bool) : Option (Except String (List Nat)) :=
  if serverCount == 0 then some (Except.error "no server container for cluster")
  else
    match copy with
    | Except.error e => some (Except.error ("ERROR: could not copy kubeconfig.yaml from server container: " ++ e))
    | Except.ok readBytes =>
      if readBytes.length < 512 then none
      else if createFileOk then some (Except.ok (trimNul (readBytes.drop 512)))
      else some (Except.error "ERROR: could not create kubeconfig.yaml")

/-- `getKubeConfig`: path resolution error first; then the cluster lookup
(`err != nil || len(clusters) != 1` is a failure, with the not-found message
when the lookup itself succeeded); then `os.Stat` on the local file: when
the file does NOT exist the kubeconfig is extracted and the local path is
returned, but in the branch where the file DOES exist the function returns
the pair `("", err)` with `err` nil, i.e. success carrying the empty path. -/
def getKubeConfig (kubeConfigPath : String) (pathErr : Option String)
    (clustersFound : Nat) (clustersErr : Option String) (stat : StatResult)
    (serverCount : Nat) (copy : Except String (List Nat)) (createFileOk : Bool) :
    Option (Except String String) :=
  match pathErr with
  | some e => some (Except.error e)
  | none =>
    if clustersErr.isSome || !(clustersFound == 1) then
      match clustersErr with
      | some e => some (Except.error e)
      | none => some (Except.error "Cluster does not exist")
    else
      match stat with
      | StatResult.statNotExists =>
        match createKubeConfigFile serverCount copy createFileOk with
        | none => none
        | some (Except.error e) => some (Except.error e)
        | some (Except.ok _) => some (Except.ok kubeConfigPath)
      | StatResult.statExists => some (Except.ok "")
      | StatResult.statFailed e => some (Except.error e)

/-! ## Concrete sample inputs -/

/-- Server container of cluster alpha. -/
def srvA : DockerContainer := { id := "sA", cluster := "alpha", component := Role.server, state := "running" }

/-- Worker container of cluster alpha. -/
def wrkA : DockerContainer := { id := "wA", cluster := "alpha", component := Role.worker, state := "running" }

/-- Server container of cluster beta. -/
def srvB : DockerContainer := { id := "sB", cluster := "beta", component := Role.server, state := "running" }

/-- Worker container of cluster beta. -/
def wrkB : DockerContainer := { id := "wB", cluster := "beta", component := Role.worker, state := "running" }

/-- An engine state holding the two healthy clusters alpha and beta. -/
def twoClusterState : EngineState :=
  { containers := [srvA, wrkA, srvB, wrkB],
    networks := [{ id := "nA", cluster := "alpha" }, { id := "nB", cluster := "beta" }],
    dirs := ["alpha", "beta"] }

/-- Removal oracle under which only the server container of alpha cannot be
removed. -/
def failServerAlpha : String → Bool := fun id => id == "sA"

/-- Removal oracle under which only the server container of beta cannot be
removed. -/
def failServerBeta : String → Bool := fun id => id == "sB"

/-- The cluster-map entry for alpha in `twoClusterState`. -/
def alphaK : KCluster := { name := "alpha", server := srvA, workers := [wrkA] }

/-- The cluster-map entry for beta in `twoClusterState`. -/
def betaK : KCluster := { name := "beta", server := srvB, workers := [wrkB] }

/-- Server container of cluster gamma. -/
def srvC : DockerContainer := { id := "sC", cluster := "gamma", component := Role.server, state := "running" }

/-- An engine state holding the freshly created server of cluster gamma
(plus an unrelated cluster delta) right before the worker loop runs. -/
def gammaState : EngineState :=
  { containers := [srvC,
                   { id := "sD", cluster := "delta", component := Role.server, state := "running" }],
    networks := [{ id := "nC", cluster := "gamma" }],
    dirs := ["gamma"] }

/-- Worker-creation oracle under which ordinal 0 succeeds and ordinal 1
fails. -/
def wfGamma : Nat → Bool := fun i => i == 1

/-- A raw `CopyFromContainer` stream: 512 header bytes, the three content
bytes 10, 20, 30, and NUL padding. -/
def sampleRaw : List Nat := List.replicate 512 7 ++ [10, 20, 30] ++ List.replicate 5 0

/-- The local kubeconfig path of the sample cluster. -/
def samplePath : String := "/home/user/.config/k3d/mycluster/kubeconfig.yaml"

/-! ## Theorems -/

/-- C1: the readiness-poll loop is claimed to abort only once the elapsed
time exceeds the timeout and to keep polling otherwise. The code has the
comparison inverted: with a 10-second timeout the very first iteration
(elapsed 0, no marker in the logs) already takes the abort branch that
deletes the cluster and returns the timeout error, while an iteration whose
elapsed time 11 exceeds the timeout does not abort and keeps polling. -/
theorem createCluster_wait_aborts_before_timeout :
    waitIteration 10 0 false 0 false = WaitStep.abortTimeout
    ∧ waitIteration 10 11 false 0 false = WaitStep.sleepPoll := by
  exact ⟨by decide, by decide⟩

/-- C2: `Offset` is claimed to shift every host port additively. The
revision wired into the current `CreateCluster` multiplies instead: on a
binding with host port 8080, offset 2 yields 16160 rather than 8082, and
offset 0 is not the identity (it zeroes the port). The additive earlier
revision yields 8082 on the same input. -/
theorem offset_multiplies_instead_of_adding :
    OffsetMultiplicative samplePorts 2 =
      { exposedPorts := ["80/tcp"],
        portBindings := [("80/tcp", [{ hostIP := "0.0.0.0", hostPort := "16160" }])] }
    ∧ OffsetMultiplicative samplePorts 0 ≠ samplePorts
    ∧ OffsetAdditive samplePorts 2 =
      { exposedPorts := ["80/tcp"],
        portBindings := [("80/tcp", [{ hostIP := "0.0.0.0", hostPort := "8082" }])] } := by
  exact ⟨by decide, by decide, by decide⟩

/-- C8: `getClusterStatus` returns `"unhealthy"` when any worker state
differs from the server state; with all workers agreeing it returns
`"stopped"` for an exited server and the raw server state otherwise. -/
theorem getClusterStatus_spec (server : DockerContainer) (workers : List DockerContainer) :
    ((∃ w ∈ workers, w.state ≠ server.state) → getClusterStatus server workers = "unhealthy")
    ∧ ((∀ w ∈ workers, w.state = server.state) → server.state = "exited" →
        getClusterStatus server workers = "stopped")
    ∧ ((∀ w ∈ workers, w.state = server.state) → server.state ≠ "exited" →
        getClusterStatus server workers = server.state) := by
  refine ⟨fun h => ?_, fun h hex => ?_, fun h hex => ?_⟩
  · obtain ⟨w, hw, hne⟩ := h
    have hany : workers.any (fun w => w.state != server.state) = true := by
      simp only [List.any_eq_true, bne_iff_ne]
      exact ⟨w, hw, hne⟩
    unfold getClusterStatus
    rw [hany]
    simp
  · have hany : workers.any (fun w => w.state != server.state) = false := by
      simp only [List.any_eq_false, bne_iff_ne, not_not]
      exact h
    unfold getClusterStatus
    rw [hany]
    simp [hex]
  · have hany : workers.any (fun w => w.state != server.state) = false := by
      simp only [List.any_eq_false, bne_iff_ne, not_not]
      exact h
    unfold getClusterStatus
    rw [hany]
    simp [hex]

/-- Witness for C8 at concrete containers: a disagreeing worker yields
`"unhealthy"`, an exited server with an agreeing worker yields `"stopped"`,
and a running server with an agreeing worker passes its state through. -/
theorem getClusterStatus_spec_witness :
    getClusterStatus srvA [{ wrkA with state := "exited" }] = "unhealthy"
    ∧ getClusterStatus { srvA with state := "exited" } [{ wrkA with state := "exited" }] = "stopped"
    ∧ getClusterStatus srvA [wrkA] = "running" :=
  ⟨(getClusterStatus_spec srvA [{ wrkA with state := "exited" }]).1
      ⟨{ wrkA with state := "exited" }, by decide, by decide⟩,
   (getClusterStatus_spec { srvA with state := "exited" } [{ wrkA with state := "exited" }]).2.1
      (by decide) (by decide),
   (getClusterStatus_spec srvA [wrkA]).2.2 (by decide) (by decide)⟩

set_option maxRecDepth 10000 in
/-- C5: fetching credentials is claimed to return the local path in every
success case. The code does skip the copy when the file already exists
(`statExists` branch never calls `createKubeConfigFile`), and a
fresh extraction strips the 512-byte header and the NUL padding and returns
the path; zero matching clusters is the not-found error. But the
already-exists branch returns success with the EMPTY string instead of the
path: the second call of the claim yields `ok ""`, not `ok samplePath`. -/
theorem getKubeConfig_existing_file_returns_empty_path :
    getKubeConfig samplePath none 1 none StatResult.statExists 1 (Except.ok sampleRaw) true
      = some (Except.ok "")
    ∧ "" ≠ samplePath
    ∧ getKubeConfig samplePath none 1 none StatResult.statNotExists 1 (Except.ok sampleRaw) true
      = some (Except.ok samplePath)
    ∧ createKubeConfigFile 1 (Except.ok sampleRaw) true = some (Except.ok [10, 20, 30])
    ∧ getKubeConfig samplePath none 0 none StatResult.statNotExists 0 (Except.ok sampleRaw) true
      = some (Except.error "Cluster does not exist") := by
  refine ⟨rfl, by decide, rfl, rfl, rfl⟩

/-- C10: `checkClusterName` indexes `name[0]` before any emptiness check,
so it is total only on non-empty input: the empty string reaches the
out-of-bounds index (modelled as `none`), and every non-empty string
produces a proper return value. -/
theorem checkClusterName_empty_is_out_of_bounds :
    checkClusterName [] = none
    ∧ ∀ name : Str, name ≠ [] → (checkClusterName name).isSome = true := by
  refine ⟨rfl, fun name h => ?_⟩
  match name with
  | [] => exact absurd rfl h
  | c0 :: rest =>
    simp only [checkClusterName]
    split
    · rfl
    · split
      · rfl
      · split <;> rfl

/-- Witness for C10: the one-character name `a` is accepted, through the
theorem applied at a concrete non-empty input. -/
theorem checkClusterName_empty_is_out_of_bounds_witness :
    (checkClusterName ['a']).isSome = true :=
  checkClusterName_empty_is_out_of_bounds.2 ['a'] (by decide)

/-- C4 counterexample: the claim says processing continues to the next
cluster in the target set even when one cluster reports an error. On the
two-cluster state (alpha listed before beta) with only the alpha server
unremovable, `DeleteCluster` with the all flag returns the alpha server
error and the beta cluster is left entirely unprocessed: its server and its
(removable) worker are still present. -/
theorem deleteCluster_stops_at_failed_server :
    (DeleteCluster failServerAlpha (fun _ => false) true "" twoClusterState).2
      = some (serverRemoveError "alpha")
    ∧ srvB ∈ (DeleteCluster failServerAlpha (fun _ => false) true "" twoClusterState).1.containers
    ∧ wrkB ∈ (DeleteCluster failServerAlpha (fun _ => false) true "" twoClusterState).1.containers := by
  exact ⟨by decide, by decide, by decide⟩

/-- A chunk free of the separator splits into itself. -/
theorem splitOnAtCore_no_at (s : Str) (h : '@' ∉ s) : splitOnAtCore s = (s, []) := by
  induction s with
  | nil => rfl
  | cons c cs ih =>
    have hc : ¬ c = '@' := fun hc => h (by simp [hc])
    have hcs : '@' ∉ cs := fun hm => h (List.mem_cons_of_mem c hm)
    simp [splitOnAtCore, ih hcs, hc]

/-- Splitting peels off the leading separator-free chunk. -/
theorem splitOnAtCore_append (l1 l2 : Str) (h : '@' ∉ l1) :
    splitOnAtCore (l1 ++ '@' :: l2) = (l1, (splitOnAtCore l2).1 :: (splitOnAtCore l2).2) := by
  induction l1 with
  | nil => simp [splitOnAtCore]
  | cons c cs ih =>
    have hc : ¬ c = '@' := fun hc => h (by simp [hc])
    have hcs : '@' ∉ cs := fun hm => h (List.mem_cons_of_mem c hm)
    simp [splitOnAtCore, ih hcs, hc]

/-- `strings.Split` on a separator-free string yields that one chunk. -/
theorem splitOnAt_no_at (s : Str) (h : '@' ∉ s) : splitOnAt s = [s] := by
  unfold splitOnAt
  rw [splitOnAtCore_no_at s h]

/-- `strings.Split` peels off the leading separator-free chunk. -/
theorem splitOnAt_cons (l1 l2 : Str) (h : '@' ∉ l1) :
    splitOnAt (l1 ++ '@' :: l2) = l1 :: splitOnAt l2 := by
  unfold splitOnAt
  rw [splitOnAtCore_append l1 l2 h]

/-- Splitting the `@`-join of separator-free selectors recovers them. -/
theorem splitOnAt_join (sels : List Str) (h : ∀ s ∈ sels, '@' ∉ s) (hne : sels ≠ []) :
    splitOnAt (joinSelectors sels) = sels := by
  induction sels with
  | nil => exact absurd rfl hne
  | cons s rest ih =>
    match rest with
    | [] =>
      show splitOnAt (joinSelectors [s]) = [s]
      exact splitOnAt_no_at s (h s (List.mem_cons_self s []))
    | t :: ts =>
      show splitOnAt (s ++ '@' :: joinSelectors (t :: ts)) = s :: t :: ts
      rw [splitOnAt_cons s _ (h s (List.mem_cons_self s _))]
      rw [ih (fun u hu => h u (List.mem_cons_of_mem s hu)) (List.cons_ne_nil t ts)]

/-- C7: for a spec of the shape `portPart@sel1@...@selK` with at least one
selector (no chunk containing a further `@`), `extractNodes` returns
exactly the selector list and the untouched port portion; for a spec with
no `@` at all it returns the one-element default selector list and the
whole string. -/
theorem extractNodes_spec (portPart : Str) (sels : List Str)
    (hp : '@' ∉ portPart) (hs : ∀ s ∈ sels, '@' ∉ s) (hne : sels ≠ []) :
    extractNodes (portPart ++ '@' :: joinSelectors sels) = (sels, portPart)
    ∧ ∀ s : Str, '@' ∉ s → extractNodes s = ([defaultNodes], s) := by
  constructor
  · have h1 : splitOnAt (portPart ++ '@' :: joinSelectors sels) = portPart :: sels :=
      by rw [splitOnAt_cons _ _ hp, splitOnAt_join sels hs hne]
    unfold extractNodes
    rw [h1]
    match sels, hne with
    | t :: ts, _ => simp
  · intro s h
    unfold extractNodes
    rw [splitOnAt_no_at s h]
    simp

/-- Witness for C7 at the spec string `80:80@node1@node2` and at the
selector-free spec `80:80`. -/
theorem extractNodes_spec_witness :
    extractNodes (['8', '0', ':', '8', '0'] ++ '@' :: joinSelectors [['n', '1'], ['n', '2']])
      = ([['n', '1'], ['n', '2']], ['8', '0', ':', '8', '0'])
    ∧ extractNodes ['8', '0', ':', '8', '0'] = ([defaultNodes], ['8', '0', ':', '8', '0']) :=
  ⟨(extractNodes_spec ['8', '0', ':', '8', '0'] [['n', '1'], ['n', '2']]
      (by decide) (by decide) (by decide)).1,
   (extractNodes_spec ['8', '0', ':', '8', '0'] [['n', '1'], ['n', '2']]
      (by decide) (by decide) (by decide)).2 ['8', '0', ':', '8', '0'] (by decide)⟩

/-- Membership after the accumulate-unless-present fold: an element is in
the result exactly when it was accumulated already or occurs in the input. -/
theorem foldl_addPortSpec_mem (l acc : List String) (x : String) :
    x ∈ l.foldl addPortSpec acc ↔ x ∈ acc ∨ x ∈ l := by
  induction l generalizing acc with
  | nil => simp
  | cons v vs ih =>
    rw [List.foldl_cons, ih]
    unfold addPortSpec
    by_cases hv : acc.contains v
    · rw [if_pos hv]
      have hmem : v ∈ acc := by simpa using hv
      constructor
      · rintro (h | h)
        · exact Or.inl h
        · exact Or.inr (List.mem_cons_of_mem v h)
      · rintro (h | h)
        · exact Or.inl h
        · rcases List.mem_cons.mp h with h | h
          · exact Or.inl (h ▸ hmem)
          · exact Or.inr h
    · rw [if_neg hv]
      simp only [List.mem_append, List.mem_singleton, List.mem_cons]
      tauto

/-- The accumulate-unless-present fold preserves freedom from duplicates. -/
theorem foldl_addPortSpec_nodup (l : List String) (acc : List String) (h : acc.Nodup) :
    (l.foldl addPortSpec acc).Nodup := by
  induction l generalizing acc with
  | nil => exact h
  | cons v vs ih =>
    rw [List.foldl_cons]
    refine ih _ ?_
    unfold addPortSpec
    by_cases hv : acc.contains v
    · rwa [if_pos hv]
    · rw [if_neg hv]
      have hvmem : v ∉ acc := by simpa using hv
      exact List.Nodup.append h (List.nodup_singleton v)
        (fun a ha hb => hvmem ((List.mem_singleton.mp hb) ▸ ha))

/-- C6: merging for a worker node named `x` yields exactly the specs of the
groups `all` and `workers` and of the literal name `x`, first-seen order
with exact duplicates removed (the spec-side `dedupFirstSeen` of their
concatenation); membership is exactly membership in one of those three
lists, so a spec attached to no key other than `server` or `master` never
appears; and the result carries no duplicates. -/
theorem mergePortSpecs_worker (m : String → List String) (x : String) :
    MergePortSpecs m "worker" x = dedupFirstSeen (m "all" ++ m "workers" ++ m x)
    ∧ (∀ s : String, s ∈ MergePortSpecs m "worker" x ↔ (s ∈ m "all" ∨ s ∈ m "workers" ∨ s ∈ m x))
    ∧ (MergePortSpecs m "worker" x).Nodup := by
  have hgroups : nodeRuleGroupsMap "worker" = ["all", "workers"] := rfl
  have heq : MergePortSpecs m "worker" x = dedupFirstSeen (m "all" ++ m "workers" ++ m x) := by
    unfold MergePortSpecs dedupFirstSeen
    rw [hgroups]
    simp [List.foldl_append]
  refine ⟨heq, fun s => ?_, ?_⟩
  · rw [heq]
    unfold dedupFirstSeen
    rw [foldl_addPortSpec_mem]
    simp [or_assoc]
  · rw [heq]
    exact foldl_addPortSpec_nodup _ _ List.nodup_nil

/-- Characters are determined by their code point. -/
theorem char_eq_of_toNat_eq (c d : Char) (h : c.toNat = d.toNat) : c = d :=
  Char.eq_of_val_eq (UInt32.ext h)

/-- Every character the switch of `checkClusterName` accepts is ASCII. -/
theorem validNameChar_lt (c : Char) (h : validNameChar c = true) : c.toNat < 0x80 := by
  unfold validNameChar at h
  simp only [Bool.or_eq_true, Bool.and_eq_true, decide_eq_true_eq, beq_iff_eq] at h
  omega

/-- The claim-side character class coincides with the switch of the
source. -/
theorem claimNameChar_iff (c : Char) : claimNameChar c ↔ validNameChar c = true := by
  unfold claimNameChar validNameChar
  simp only [Bool.or_eq_true, Bool.and_eq_true, decide_eq_true_eq, beq_iff_eq]
  constructor
  · rintro (⟨h1, h2⟩ | ⟨h1, h2⟩ | ⟨h1, h2⟩ | h)
    · exact Or.inl (Or.inr ⟨h1, h2⟩)
    · exact Or.inl (Or.inl (Or.inr ⟨h1, h2⟩))
    · exact Or.inl (Or.inl (Or.inl ⟨h1, h2⟩))
    · subst h
      exact Or.inr rfl
  · rintro (((⟨h1, h2⟩ | ⟨h1, h2⟩) | ⟨h1, h2⟩) | h)
    · exact Or.inr (Or.inr (Or.inl ⟨h1, h2⟩))
    · exact Or.inr (Or.inl ⟨h1, h2⟩)
    · exact Or.inl ⟨h1, h2⟩
    · exact Or.inr (Or.inr (Or.inr (char_eq_of_toNat_eq c '-' h)))

/-- An accepted character occupies one byte. -/
theorem utf8Size_of_valid (c : Char) (h : validNameChar c = true) : utf8Size c = 1 := by
  unfold utf8Size
  rw [if_pos (validNameChar_lt c h)]

/-- On strings of accepted characters the Go byte length is the rune
count. -/
theorem byteLen_eq_length (s : Str) (h : ∀ c ∈ s, validNameChar c = true) :
    byteLen s = s.length := by
  induction s with
  | nil => rfl
  | cons c cs ih =>
    have h1 : utf8Size c = 1 := utf8Size_of_valid c (h c (List.mem_cons_self c cs))
    have h2 := ih (fun d hd => h d (List.mem_cons_of_mem c hd))
    unfold byteLen at h2 ⊢
    simp only [List.map_cons, List.sum_cons, List.length_cons, h1]
    omega

/-- The first byte of the encoding of a character is the dash byte exactly
when the character is the dash. -/
theorem utf8FirstByte_eq_45 (c : Char) : utf8FirstByte c = 45 ↔ c = '-' := by
  constructor
  · intro h
    unfold utf8FirstByte at h
    by_cases h1 : c.toNat < 0x80
    · rw [if_pos h1] at h
      exact char_eq_of_toNat_eq c '-' h
    · rw [if_neg h1] at h
      exfalso
      by_cases h2 : c.toNat < 0x800
      · rw [if_pos h2] at h
        generalize c.toNat / 0x40 = q at h
        omega
      · rw [if_neg h2] at h
        by_cases h3 : c.toNat < 0x10000
        · rw [if_pos h3] at h
          generalize c.toNat / 0x1000 = q at h
          omega
        · rw [if_neg h3] at h
          generalize c.toNat / 0x40000 = q at h
          omega
  · intro h
    subst h
    rfl

/-- The last byte of the encoding of a character is the dash byte exactly
when the character is the dash. -/
theorem utf8LastByte_eq_45 (c : Char) : utf8LastByte c = 45 ↔ c = '-' := by
  constructor
  · intro h
    unfold utf8LastByte at h
    by_cases h1 : c.toNat < 0x80
    · rw [if_pos h1] at h
      exact char_eq_of_toNat_eq c '-' h
    · rw [if_neg h1] at h
      generalize c.toNat % 0x40 = q at h
      omega
  · intro h
    subst h
    rfl

/-- C9: on non-empty input, `checkClusterName` accepts exactly the names of
at most 35 characters built from ASCII letters, digits and dashes that
neither start nor end with a dash. (The source checks 35 bytes and
inspects the first and last byte; on accepted names bytes and characters
coincide, and a non-ASCII character is rejected by the switch on both
sides of the equivalence.) -/
theorem checkClusterName_ok_iff (name : Str) (h : name ≠ []) :
    checkClusterName name = some none ↔
      (name.length ≤ clusterNameMaxSize ∧ (∀ c ∈ name, claimNameChar c)
        ∧ name.head h ≠ '-' ∧ name.getLast h ≠ '-') := by
  match name, h with
  | c0 :: rest, h =>
    simp only [checkClusterName, List.head_cons]
    constructor
    · intro hok
      by_cases hlen : byteLen (c0 :: rest) > clusterNameMaxSize
      · rw [if_pos hlen] at hok
        exact absurd hok (by simp)
      · rw [if_neg hlen] at hok
        by_cases hdash : utf8FirstByte c0 = 0x2D
            ∨ utf8LastByte ((c0 :: rest).getLast (List.cons_ne_nil c0 rest)) = 0x2D
        · rw [if_pos hdash] at hok
          exact absurd hok (by simp)
        · rw [if_neg hdash] at hok
          by_cases hall : (c0 :: rest).all validNameChar = true
          · push_neg at hdash
            have hvalid : ∀ c ∈ c0 :: rest, validNameChar c = true := by
              simpa [List.all_eq_true] using hall
            refine ⟨?_, ?_, ?_, ?_⟩
            · have := byteLen_eq_length (c0 :: rest) hvalid
              omega
            · exact fun c hc => (claimNameChar_iff c).mpr (hvalid c hc)
            · exact fun hc => hdash.1 ((utf8FirstByte_eq_45 c0).mpr hc)
            · exact fun hc => hdash.2 ((utf8LastByte_eq_45 _).mpr hc)
          · rw [if_neg hall] at hok
            exact absurd hok (by simp)
    · rintro ⟨hlen, hcc, hh, hl⟩
      have hvalid : ∀ c ∈ c0 :: rest, validNameChar c = true :=
        fun c hc => (claimNameChar_iff c).mp (hcc c hc)
      have hbl : byteLen (c0 :: rest) = (c0 :: rest).length := byteLen_eq_length _ hvalid
      have hd : ¬ (utf8FirstByte c0 = 0x2D
          ∨ utf8LastByte ((c0 :: rest).getLast (List.cons_ne_nil c0 rest)) = 0x2D) := by
        rintro (hc | hc)
        · exact hh ((utf8FirstByte_eq_45 c0).mp hc)
        · exact hl ((utf8LastByte_eq_45 _).mp hc)
      rw [if_neg (show ¬ byteLen (c0 :: rest) > clusterNameMaxSize by omega), if_neg hd,
        if_pos (show (c0 :: rest).all validNameChar = true by simpa [List.all_eq_true] using hvalid)]

/-- Witness for C9: the name `ab-1` is accepted, obtained through the
backward direction of the equivalence at that input. -/
theorem checkClusterName_ok_iff_witness :
    checkClusterName ['a', 'b', '-', '1'] = some none :=
  (checkClusterName_ok_iff ['a', 'b', '-', '1'] (by decide)).mpr (by decide)

/-- Removing a container filters exactly the containers with that id. -/
theorem mem_removeContainerFromState (id : String) (st : EngineState) (c : DockerContainer) :
    c ∈ (removeContainerFromState id st).containers ↔ (c ∈ st.containers ∧ c.id ≠ id) := by
  unfold removeContainerFromState
  simp [List.mem_filter]

/-- After best-effort worker removal with a never-failing engine, a
container remains exactly when it was present and its id is none of the
removed workers. -/
theorem mem_removeWorkers_all_ok (ws : List DockerContainer) (st : EngineState) (c : DockerContainer) :
    c ∈ (removeWorkers (fun _ => false) ws st).containers ↔
      (c ∈ st.containers ∧ ∀ w ∈ ws, c.id ≠ w.id) := by
  induction ws generalizing st with
  | nil => simp [removeWorkers]
  | cons w ws ih =>
    have ht : tryRemoveContainer (fun _ => false) w.id st = (removeContainerFromState w.id st, none) := rfl
    show c ∈ (removeWorkers (fun _ => false) ws (tryRemoveContainer (fun _ => false) w.id st).1).containers ↔ _
    rw [ht, ih, mem_removeContainerFromState]
    constructor
    · rintro ⟨⟨h1, h2⟩, h3⟩
      refine ⟨h1, fun w2 hw2 => ?_⟩
      rcases List.mem_cons.mp hw2 with h | h
      · exact h ▸ h2
      · exact h3 w2 h
    · rintro ⟨h1, h2⟩
      exact ⟨⟨h1, h2 w (List.mem_cons_self w ws)⟩, fun w2 hw2 => h2 w2 (List.mem_cons_of_mem w hw2)⟩

/-- The accumulator fold of `getClusters` collects, in order, one entry per
server passing the name filter. -/
theorem foldl_getClusters_append (name : String) (f : DockerContainer → KCluster)
    (L : List DockerContainer) (acc : List KCluster) :
    L.foldl (fun acc server => if name == server.cluster then acc ++ [f server] else acc) acc
      = acc ++ (L.filter (fun server => name == server.cluster)).map f := by
  induction L generalizing acc with
  | nil => simp
  | cons s ss ih =>
    rw [List.foldl_cons]
    by_cases hcl : (name == s.cluster) = true
    · rw [if_pos hcl, ih]
      simp [List.filter_cons, hcl]
    · rw [if_neg hcl, ih]
      simp [List.filter_cons, hcl]

/-- When exactly one server container carries the cluster label `name`,
`getClusters` resolves that name to the one cluster entry built from it. -/
theorem getClusters_single (name : String) (st : EngineState) (s : DockerContainer)
    (hs : st.containers.filter (fun c => c.component == Role.server && (name == c.cluster)) = [s]) :
    getClusters false name st
      = [{ name := s.cluster, server := s,
           workers := st.containers.filter
             (fun c => c.component == Role.worker && c.cluster == s.cluster) }] := by
  unfold getClusters
  simp only [Bool.false_or]
  rw [foldl_getClusters_append name _ _ []]
  rw [List.filter_filter]
  have hcomm : st.containers.filter (fun c => (name == c.cluster) && (c.component == Role.server))
      = st.containers.filter (fun c => c.component == Role.server && (name == c.cluster)) :=
    List.filter_congr (fun c _ => by rw [Bool.and_comm])
  rw [hcomm, hs]
  simp

/-- Rollback correctness: with a unique server for `name` and a
never-refusing engine, `DeleteCluster` on that one name leaves no container
and no network labelled with the cluster name. -/
theorem deleteCluster_rollback_clean (name : String) (st : EngineState) (s : DockerContainer)
    (hs : st.containers.filter (fun c => c.component == Role.server && (name == c.cluster)) = [s]) :
    (∀ c ∈ (DeleteCluster (fun _ => false) (fun _ => false) false name st).1.containers, c.cluster ≠ name)
    ∧ (∀ nw ∈ (DeleteCluster (fun _ => false) (fun _ => false) false name st).1.networks, nw.cluster ≠ name) := by
  have hsmem0 : s ∈ st.containers.filter (fun c => c.component == Role.server && (name == c.cluster)) := by
    rw [hs]
    exact List.mem_singleton_self s
  have hspred := (List.mem_filter.mp hsmem0).2
  simp only [Bool.and_eq_true, beq_iff_eq] at hspred
  have hsname : s.cluster = name := hspred.2.symm
  have hloop : DeleteCluster (fun _ => false) (fun _ => false) false name st
      = deleteClustersLoop (fun _ => false) (fun _ => false)
          [{ name := s.cluster, server := s,
             workers := st.containers.filter
               (fun c => c.component == Role.worker && c.cluster == s.cluster) }] st := by
    unfold DeleteCluster
    rw [getClusters_single name st s hs]
  have hres : (DeleteCluster (fun _ => false) (fun _ => false) false name st).1
      = deleteClusterNetwork (fun _ => false) s.cluster
          (removeContainerFromState s.id
            (deleteClusterDir s.cluster
              (removeWorkers (fun _ => false)
                (st.containers.filter (fun c => c.component == Role.worker && c.cluster == s.cluster))
                st))) := by
    rw [hloop]
    rfl
  constructor
  · intro c hc hcn
    rw [hres] at hc
    have hc1 : c ∈ (removeContainerFromState s.id
        (deleteClusterDir s.cluster
          (removeWorkers (fun _ => false)
            (st.containers.filter (fun c => c.component == Role.worker && c.cluster == s.cluster))
            st))).containers := hc
    rw [mem_removeContainerFromState] at hc1
    rcases hc1 with ⟨hc2, hcid⟩
    have hc3 : c ∈ (removeWorkers (fun _ => false)
        (st.containers.filter (fun c => c.component == Role.worker && c.cluster == s.cluster))
        st).containers := hc2
    rw [mem_removeWorkers_all_ok] at hc3
    rcases hc3 with ⟨hcst, hwid⟩
    cases hcomp : c.component with
    | server =>
      have hcf : c ∈ st.containers.filter (fun c => c.component == Role.server && (name == c.cluster)) :=
        List.mem_filter.mpr ⟨hcst, by simp [hcomp, hcn]⟩
      rw [hs] at hcf
      have : c = s := List.mem_singleton.mp hcf
      exact hcid (this ▸ rfl)
    | worker =>
      have hcf : c ∈ st.containers.filter (fun c => c.component == Role.worker && c.cluster == s.cluster) :=
        List.mem_filter.mpr ⟨hcst, by simp [hcomp, hcn, hsname]⟩
      exact hwid c hcf rfl
  · intro nw hnw hcn
    rw [hres] at hnw
    have hn1 : nw ∈ ((removeContainerFromState s.id
        (deleteClusterDir s.cluster
          (removeWorkers (fun _ => false)
            (st.containers.filter (fun c => c.component == Role.worker && c.cluster == s.cluster))
            st))).networks.filter (fun nw => !(nw.cluster == s.cluster && !false))) := hnw
    have hn2 := (List.mem_filter.mp hn1).2
    simp only [Bool.not_false, Bool.and_true, Bool.not_eq_true', beq_eq_false_iff_ne] at hn2
    exact hn2 (hcn.trans hsname.symm)

/-- Adding a worker container does not change which containers pass the
server filter for the cluster name. -/
theorem createWorker_preserves_server_filter (name : String) (i : Nat) (st : EngineState) :
    (createWorkerInState name i st).containers.filter
        (fun c => c.component == Role.server && (name == c.cluster))
      = st.containers.filter (fun c => c.component == Role.server && (name == c.cluster)) := by
  unfold createWorkerInState
  rw [List.filter_append]
  have hnil : List.filter (fun c => c.component == Role.server && (name == c.cluster))
      [({ id := workerName name i, cluster := name, component := Role.worker,
          state := "running" } : DockerContainer)]
      = [] := rfl
  rw [hnil, List.append_nil]

/-- C3: when some worker creation fails (with the engine honouring
removals), the worker loop of `CreateCluster` reports the error and rolls
the whole cluster back: the final engine state holds no container and no
network labelled with the cluster name. `s` is the unique server container
the cluster-existence precheck guarantees for the name. -/
theorem createCluster_worker_failure_rolls_back (wf : Nat → Bool) (name : String)
    (st : EngineState) (i count : Nat) (s : DockerContainer)
    (hs : st.containers.filter (fun c => c.component == Role.server && (name == c.cluster)) = [s])
    (hfail : ∃ j, j < count ∧ wf (i + j) = true) :
    ((createWorkersLoop wf (fun _ => false) (fun _ => false) name i count st).2).isSome = true
    ∧ (∀ c ∈ (createWorkersLoop wf (fun _ => false) (fun _ => false) name i count st).1.containers,
        c.cluster ≠ name)
    ∧ (∀ nw ∈ (createWorkersLoop wf (fun _ => false) (fun _ => false) name i count st).1.networks,
        nw.cluster ≠ name) := by
  induction count generalizing i st with
  | zero =>
    obtain ⟨j, hj, _⟩ := hfail
    exact absurd hj (Nat.not_lt_zero j)
  | succ n ih =>
    by_cases hwf : wf i = true
    · have hstep : createWorkersLoop wf (fun _ => false) (fun _ => false) name i (n + 1) st
          = ((DeleteCluster (fun _ => false) (fun _ => false) false name st).1,
             some "ERROR: failed to create worker node") := by
        simp only [createWorkersLoop]
        rw [if_pos hwf]
      rw [hstep]
      have hclean := deleteCluster_rollback_clean name st s hs
      exact ⟨rfl, hclean.1, hclean.2⟩
    · have hstep : createWorkersLoop wf (fun _ => false) (fun _ => false) name i (n + 1) st
          = createWorkersLoop wf (fun _ => false) (fun _ => false) name (i + 1) n
              (createWorkerInState name i st) := by
        simp only [createWorkersLoop]
        rw [if_neg hwf]
      rw [hstep]
      refine ih (createWorkerInState name i st) (i + 1) ?_ ?_
      · rw [createWorker_preserves_server_filter]
        exact hs
      · obtain ⟨j, hj, hwj⟩ := hfail
        match j, hj, hwj with
        | 0, _, hwj => exact absurd (by simpa using hwj) hwf
        | k + 1, hj, hwj =>
          exact ⟨k, by omega, by rw [show i + 1 + k = i + (k + 1) by omega]; exact hwj⟩

/-- Witness for C3: in the gamma state (unique gamma server `srvC`), with
worker ordinal 1 failing out of 2, the loop reports an error; the rollback
conclusions follow from the same instantiation. -/
theorem createCluster_worker_failure_rolls_back_witness :
    gammaState.containers.filter (fun c => c.component == Role.server && ("gamma" == c.cluster))
      = [srvC]
    ∧ ((createWorkersLoop wfGamma (fun _ => false) (fun _ => false) "gamma" 0 2 gammaState).2).isSome
      = true :=
  ⟨by decide,
   (createCluster_worker_failure_rolls_back wfGamma "gamma" gammaState 0 2 srvC (by decide)
      ⟨1, by decide, by decide⟩).1⟩

/-- One loop step on a cluster whose server the engine will remove. -/
theorem deleteClustersLoop_cons_ok (rf nf : String → Bool) (c : KCluster) (rest : List KCluster)
    (st : EngineState) (hc : rf c.server.id = false) :
    deleteClustersLoop rf nf (c :: rest) st
      = deleteClustersLoop rf nf rest
          (deleteClusterNetwork nf c.name
            (removeContainerFromState c.server.id
              (deleteClusterDir c.name (removeWorkers rf c.workers st)))) := by
  simp only [deleteClustersLoop]
  rw [if_neg (by simp [hc])]

/-- A prefix of clusters with removable servers is processed completely and
its final state is the input of the remaining clusters. -/
theorem deleteClustersLoop_ok_append (rf nf : String → Bool) (pre rest : List KCluster)
    (st : EngineState) (hpre : ∀ k ∈ pre, rf k.server.id = false) :
    deleteClustersLoop rf nf (pre ++ rest) st
      = deleteClustersLoop rf nf rest (deleteClustersLoop rf nf pre st).1 := by
  induction pre generalizing st with
  | nil => rfl
  | cons c cs ih =>
    have hc : rf c.server.id = false := hpre c (List.mem_cons_self c cs)
    rw [List.cons_append, deleteClustersLoop_cons_ok rf nf c (cs ++ rest) st hc,
      deleteClustersLoop_cons_ok rf nf c cs st hc,
      ih _ (fun k hk => hpre k (List.mem_cons_of_mem c hk))]

/-- The loop ends without error exactly when every server in the target set
can be removed: worker and network failures never produce the error, and a
failing server always does. -/
theorem deleteClustersLoop_none_iff (rf nf : String → Bool) (cs : List KCluster) (st : EngineState) :
    (deleteClustersLoop rf nf cs st).2 = none ↔ ∀ k ∈ cs, rf k.server.id = false := by
  induction cs generalizing st with
  | nil => simp [deleteClustersLoop]
  | cons c cs ih =>
    by_cases hc : rf c.server.id = true
    · have hstop : deleteClustersLoop rf nf (c :: cs) st
          = (deleteClusterDir c.name (removeWorkers rf c.workers st),
             some (serverRemoveError c.name)) := by
        simp only [deleteClustersLoop]
        rw [if_pos hc]
      rw [hstop]
      constructor
      · intro h
        simp at h
      · intro h
        rw [h c (List.mem_cons_self c cs)] at hc
        simp at hc
    · have hcf : rf c.server.id = false := by
        simpa using hc
      rw [deleteClustersLoop_cons_ok rf nf c cs st hcf, ih]
      constructor
      · intro h k hk
        rcases List.mem_cons.mp hk with h1 | h1
        · exact h1 ▸ hcf
        · exact h k h1
      · intro h k hk
        exact h k (List.mem_cons_of_mem c hk)

/-- C4 amended: per cluster the workers are removed first (best effort,
failures only logged), then the bookkeeping directory is deleted, then the
server container is removed; when a server removal fails, `DeleteCluster`
returns that error at once and every later cluster in the target set is
left untouched; the returned error is nil exactly when every server removal
succeeded, so worker and network removal failures never abort processing. -/
theorem deleteCluster_per_cluster_behaviour (rf nf : String → Bool) (pre : List KCluster)
    (c : KCluster) (post : List KCluster) (st : EngineState)
    (hpre : ∀ k ∈ pre, rf k.server.id = false) (hc : rf c.server.id = true) :
    (deleteClustersLoop rf nf (pre ++ c :: post) st).2 = some (serverRemoveError c.name)
    ∧ (deleteClustersLoop rf nf (pre ++ c :: post) st).1
        = deleteClusterDir c.name
            (removeWorkers rf c.workers (deleteClustersLoop rf nf pre st).1)
    ∧ (∀ cs : List KCluster, ∀ st2 : EngineState,
        ((deleteClustersLoop rf nf cs st2).2 = none ↔ ∀ k ∈ cs, rf k.server.id = false)) := by
  have hsplit := deleteClustersLoop_ok_append rf nf pre (c :: post) st hpre
  have hstop : deleteClustersLoop rf nf (c :: post) (deleteClustersLoop rf nf pre st).1
      = (deleteClusterDir c.name
           (removeWorkers rf c.workers (deleteClustersLoop rf nf pre st).1),
         some (serverRemoveError c.name)) := by
    simp only [deleteClustersLoop]
    rw [if_pos hc]
  refine ⟨?_, ?_, fun cs st2 => deleteClustersLoop_none_iff rf nf cs st2⟩
  · rw [hsplit, hstop]
  · rw [hsplit, hstop]

/-- Witness for C4: on the two-cluster state with only the beta server
unremovable and alpha processed first, the loop returns the beta server
error. -/
theorem deleteCluster_per_cluster_behaviour_witness :
    failServerBeta betaK.server.id = true
    ∧ (deleteClustersLoop failServerBeta (fun _ => false) ([alphaK] ++ betaK :: []) twoClusterState).2
        = some (serverRemoveError "beta") :=
  ⟨by decide,
   (deleteCluster_per_cluster_behaviour failServerBeta (fun _ => false) [alphaK] betaK []
      twoClusterState (by decide) (by decide)).1⟩

end K3d
